import Mathlib

/-
Verification of the windups timed-progression engine.

The repository source under verification is src/src/react/useWindup.ts: the
React hook that owns the reducer state { windup, didFinishOnce }, the single
advance-timer ref, the deferred completion timeout, and the effects that fire
the reveal (onChar) and completion (onFinished) callbacks.

The modules useWindup.ts imports (../Windup, ./Pace, ./OnChar) are not part of
the source tree given; following the specification, their functions (next,
rewind, fastForward, isFinished, lastPlayedElement, nextElement,
paceFromWindup, onCharsFromWindup, defaultGetPace) are modelled from the
spec's own description of the Progression Model and Pace Resolver.

The React runtime is embedded as an explicit event machine:
- DriverState carries the reducer state, the current props (skipped), the
  timeout ref, the multiset of live advance timers (handle, delay) as
  created by setTimeout and removed by clearTimeout or by firing, the
  deferred completion flag, a fresh-handle counter, and the observable
  output trace (callback invocations).
- Effects run after a dispatch when their dependencies changed; dependency
  change for the windup is reference identity, modelled action by action
  (next / fastForward return the same object when already finished; replace
  and rewind allocate a new state). Boolean dependencies (didFinishOnce,
  windupIsFinished) compare by value. The options object is treated as
  stable, so the completion effect re-runs exactly when didFinishOnce or
  windupIsFinished changes; this is observationally equivalent to an
  options identity change that cancels and immediately re-queues the same
  deferred completion.
- The cleanup of the completion effect and the boolean guard are fused into
  a single assignment of pendingFinish, which is faithful because the flag
  is owned solely by that effect.
-/

namespace Windups

/-- Callback invocations observable from outside the driver: a reveal
callback (identified by a numeric id) receiving an element, or the
completion callback. -/
inductive Output where
  | revealed (id : Nat) (el : String)
  | finished
deriving DecidableEq

/-- Modelled from the spec: the Progression State of the missing Windup
module, an ordered sequence with a cursor in [0, length], together with the
per-sequence metadata read by the React layer: the reveal-callback ids of
its contexts and an optional pace function. -/
structure Windup where
  sequence : List String
  cursor : Nat
  onChars : List Nat
  pace : Option (String → Option String → Int)

/-- Modelled from the spec: isFinished(state) is cursor == length. -/
def isFinished (w : Windup) : Bool := w.cursor == w.sequence.length

/-- Modelled from the spec: next increments the cursor unless finished, in
which case it returns the state unchanged. -/
def next (w : Windup) : Windup :=
  if isFinished w then w else { w with cursor := w.cursor + 1 }

/-- Modelled from the spec: rewind returns the same sequence with cursor 0. -/
def rewind (w : Windup) : Windup := { w with cursor := 0 }

/-- Modelled from the spec: fastForward sets the cursor to the length,
regardless of the current cursor. -/
def fastForward (w : Windup) : Windup := { w with cursor := w.sequence.length }

/-- Modelled from the spec: the element at index cursor - 1, absent when
cursor == 0. -/
def lastPlayedElement (w : Windup) : Option String :=
  if w.cursor = 0 then none else w.sequence.get? (w.cursor - 1)

/-- Modelled from the spec: the element at the cursor, absent when finished. -/
def nextElement (w : Windup) : Option String := w.sequence.get? w.cursor

/-- Modelled from the spec: the optional pace function carried by the
sequence's metadata. -/
def paceFromWindup (w : Windup) : Option (String → Option String → Int) := w.pace

/-- Modelled from the spec: the reveal callbacks carried by the sequence's
contexts, as ids. -/
def onCharsFromWindup (w : Windup) : List Nat := w.onChars

/-- Modelled from the spec: the process-wide default pace function (the
spec's scenarios use 50 time units per element). -/
def defaultGetPace : String → Option String → Int := fun _ _ => 50

/-- Reducer state of useWindup.ts: the windup and the one-shot finish flag. -/
structure WindupReducerState where
  windup : Windup
  didFinishOnce : Bool

/-- Reducer actions of useWindup.ts. -/
inductive WindupReducerAction where
  | replace (windup : Windup)
  | next
  | rewind
  | fastForward
  | finish

/-- initWindupState of useWindup.ts. -/
def initWindupState (w : Windup) : WindupReducerState :=
  { windup := w, didFinishOnce := false }

/-- windupReducer of useWindup.ts. -/
def windupReducer (s : WindupReducerState) : WindupReducerAction → WindupReducerState
  | .replace w => initWindupState w
  | .next => { s with windup := next s.windup }
  | .rewind => { windup := rewind s.windup, didFinishOnce := false }
  | .fastForward => { s with windup := fastForward s.windup }
  | .finish => { s with didFinishOnce := true }

/-- The full driver state of the useWindup hook, including the host timer
bookkeeping and the observable output trace. liveNext holds the advance
timers created by setTimeout and not yet cleared or fired, as
(handle, delay) pairs; timeoutRef mirrors timeoutRef.current (it is not
nulled by clearTimeout, exactly as in the source). -/
structure DriverState where
  rs : WindupReducerState
  skipped : Option Bool
  timeoutRef : Option Nat
  liveNext : List (Nat × Int)
  pendingFinish : Bool
  fresh : Nat
  out : List Output

/-- clearTimeout(timeoutRef.current) guarded by the ref being set: removes
the referenced handle from the live timers (a no-op on an already cleared
or fired handle, as in the host). -/
def clearRef (s : DriverState) : DriverState :=
  match s.timeoutRef with
  | none => s
  | some h => { s with liveNext := s.liveNext.filter (fun p => p.1 != h) }

/-- The delay handed to setTimeout by the windup effect:
lastEl ? getPace(lastEl, nextEl) : 0, with JavaScript string truthiness
(the empty string is falsy). -/
def advanceDelay (w : Windup) : Int :=
  match lastPlayedElement w with
  | some el =>
      if el.isEmpty then 0
      else ((paceFromWindup w).getD defaultGetPace) el (nextElement w)
  | none => 0

/-- setTimeout of the advance dispatch: creates a fresh live timer handle
and stores it in timeoutRef. -/
def scheduleNext (s : DriverState) (d : Int) : DriverState :=
  { s with liveNext := s.liveNext ++ [(s.fresh, d)],
           timeoutRef := some s.fresh,
           fresh := s.fresh + 1 }

/-- The onChar effect of useWindup.ts (lines 133-141): when the windup
changed, fire every callback of onCharsFromWindup with lastPlayedElement,
provided the callback list is nonempty and lastEl is truthy. -/
def onCharEffect (s : DriverState) : DriverState :=
  match lastPlayedElement s.rs.windup with
  | some el =>
      if 0 < (onCharsFromWindup s.rs.windup).length && !el.isEmpty then
        { s with out :=
            s.out ++ (onCharsFromWindup s.rs.windup).map (fun i => Output.revealed i el) }
      else s
  | none => s

/-- The onFinished effect of useWindup.ts (lines 144-157): its cleanup
cancels the previously deferred completion timeout, and its body defers a
new one exactly when didFinishOnce is false and the windup is finished.
Cleanup and body fuse into one assignment of pendingFinish. -/
def onFinishedEffect (s : DriverState) : DriverState :=
  { s with pendingFinish := !s.rs.didFinishOnce && isFinished s.rs.windup }

/-- The windup effect of useWindup.ts (lines 160-177): its cleanup clears
the timer referenced by timeoutRef; its body, when not finished, schedules
the advance timer with the pace-resolved delay. -/
def windupEffect (s : DriverState) : DriverState :=
  if isFinished (clearRef s).rs.windup then clearRef s
  else scheduleNext (clearRef s) (advanceDelay (clearRef s).rs.windup)

/-- Which effect dependencies changed across a dispatch batch. -/
structure Changes where
  w : Bool
  dfo : Bool
  fin : Bool

/-- One post-render effects pass: the onChar, onFinished and windup effects
re-run, in declaration order, when their dependencies changed. -/
def effectsPass (s : DriverState) (c : Changes) : DriverState :=
  let s1 := if c.w then onCharEffect s else s
  let s2 := if c.dfo || c.fin then onFinishedEffect s1 else s1
  if c.w || c.fin then windupEffect s2 else s2

/-- Whether an action makes the reducer return a windup object distinct
from the previous one (React compares effect dependencies by reference):
replace and rewind always allocate; next and fastForward return the very
same object when the windup is already finished; finish does not touch the
windup. -/
def actionChangesW (rs : WindupReducerState) : WindupReducerAction → Bool
  | .replace _ => true
  | .next => !isFinished rs.windup
  | .rewind => true
  | .fastForward => !isFinished rs.windup
  | .finish => false

/-- Apply a batch of dispatched actions in order, recording whether the
windup reference changed at any point. -/
def applyActions (rs : WindupReducerState) :
    List WindupReducerAction → WindupReducerState × Bool
  | [] => (rs, false)
  | a :: rest =>
      ((applyActions (windupReducer rs a) rest).1,
        actionChangesW rs a || (applyActions (windupReducer rs a) rest).2)

/-- Process the actions dispatched during one event and run the resulting
effects pass. No dispatch means no re-render and no effects. -/
def dispatchBatch (s : DriverState) (acts : List WindupReducerAction) : DriverState :=
  match acts with
  | [] => s
  | _ :: _ =>
      effectsPass { s with rs := (applyActions s.rs acts).1 }
        { w := (applyActions s.rs acts).2,
          dfo := s.rs.didFinishOnce != (applyActions s.rs acts).1.didFinishOnce,
          fin := isFinished s.rs.windup != isFinished (applyActions s.rs acts).1.windup }

/-- External events the driver reacts to: a live advance timer firing, the
deferred completion timeout firing, the exposed skip and rewind calls, a
change of the skipped option, and a new windup prop. -/
inductive Event where
  | nextTimer (h : Nat)
  | finishTimer
  | callSkip
  | callRewind
  | setSkipped (b : Option Bool)
  | setWindup (w : Windup)

/-- One event of the single-threaded event loop. A nextTimer event for a
handle that is no longer live is a no-op (a cleared timer never fires its
callback); likewise finishTimer when no completion is deferred. -/
def stepEvent (s : DriverState) : Event → DriverState
  | .nextTimer h =>
      if s.liveNext.any (fun p => p.1 == h) then
        dispatchBatch
          { s with liveNext := s.liveNext.filter (fun p => p.1 != h) } [.next]
      else s
  | .finishTimer =>
      if s.pendingFinish then
        dispatchBatch
          { s with pendingFinish := false, out := s.out ++ [Output.finished] } [.finish]
      else s
  | .callSkip =>
      if isFinished s.rs.windup then s
      else dispatchBatch (clearRef s) [.fastForward]
  | .callRewind =>
      dispatchBatch (clearRef s) [.rewind]
  | .setSkipped b =>
      if s.skipped == b then s
      else
        match b with
        | some true => dispatchBatch (clearRef { s with skipped := b }) [.fastForward]
        | some false => dispatchBatch (clearRef { s with skipped := b }) [.rewind]
        | none => clearRef { s with skipped := b }
  | .setWindup w =>
      dispatchBatch s [.replace w]

/-- Mounting the hook: the initial reducer state, then the first effects
pass in which every effect runs (the skipped effect clears the absent
timer and, with the replace dispatched by the windup-prop effect, queues
the dispatches processed right after the pass). -/
def mount (w : Windup) (sk : Option Bool) : DriverState :=
  let s0 : DriverState :=
    { rs := initWindupState w, skipped := sk, timeoutRef := none,
      liveNext := [], pendingFinish := false, fresh := 0, out := [] }
  let s1 := clearRef s0
  let s2 := onCharEffect s1
  let s3 := onFinishedEffect s2
  let s4 := windupEffect s3
  dispatchBatch s4
    (WindupReducerAction.replace w ::
      (match sk with
       | some true => [WindupReducerAction.fastForward]
       | some false => [WindupReducerAction.rewind]
       | none => []))

/-- Run a list of events from a given driver state. -/
def runFrom (s : DriverState) (es : List Event) : DriverState :=
  es.foldl stepEvent s

/-- Run a list of events from a freshly mounted hook. -/
def run (w : Windup) (sk : Option Bool) (es : List Event) : DriverState :=
  runFrom (mount w sk) es

/-- Number of completion-callback invocations in an output trace. -/
def countFinished : List Output → Nat
  | [] => 0
  | Output.finished :: t => countFinished t + 1
  | Output.revealed _ _ :: t => countFinished t

/-- Number of reveal-callback invocations in an output trace. -/
def countRevealed : List Output → Nat
  | [] => 0
  | Output.finished :: t => countRevealed t
  | Output.revealed _ _ :: t => countRevealed t + 1

/-- Events that start a new play-through: a rewind request, the control
signal turning false, and a sequence replacement. -/
def isReset : Event → Bool
  | .callRewind => true
  | .setSkipped (some false) => true
  | .setWindup _ => true
  | _ => false

/-- Single boolean check of the timer discipline: at most one live advance
timer, and every live handle is the one held by timeoutRef. -/
def timerOk (s : DriverState) : Bool :=
  decide (s.liveNext.length ≤ 1) &&
    s.liveNext.all (fun p => s.timeoutRef == some p.1)

/-- Invariant of every reachable state of a driver mounted on the empty
sequence (within one play-through): the windup is the immediately finished
empty one, no advance timer is live, no reveal was ever fired, the deferred
completion is pending exactly while didFinishOnce is false, and the
completion count matches didFinishOnce. -/
def emptyInv (cs : List Nat) (p : Option (String → Option String → Int))
    (s : DriverState) : Prop :=
  s.rs.windup = ⟨[], 0, cs, p⟩ ∧
  s.liveNext = [] ∧
  countRevealed s.out = 0 ∧
  s.pendingFinish = (!s.rs.didFinishOnce) ∧
  countFinished s.out = (if s.rs.didFinishOnce then 1 else 0)

/-- Concrete five-element sequence carrying one reveal callback (id 7). -/
def exFive : Windup := ⟨["a", "b", "c", "d", "e"], 0, [7], none⟩

/-- Concrete three-element sequence carrying one reveal callback (id 1). -/
def exThree : Windup := ⟨["a", "b", "c"], 0, [1], none⟩

/-- Concrete three-element sequence whose pace function returns -5. -/
def exNegPace : Windup := ⟨["a", "b", "c"], 0, [], some (fun _ _ => -5)⟩

/-- Concrete empty sequence carrying one reveal callback (id 3). -/
def exEmpty : Windup := ⟨[], 0, [3], none⟩

/-- Concrete two-element sequence without callbacks. -/
def exTwo : Windup := ⟨["a", "b"], 0, [], none⟩

/-- Concrete cursor-zero windup carrying a pace function returning 999. -/
def exPace : Windup := ⟨["a", "b"], 0, [], some (fun _ _ => 999)⟩

/-! ### Frame lemmas for the individual effects -/

theorem clearRef_rs (s : DriverState) : (clearRef s).rs = s.rs := by
  unfold clearRef; split <;> rfl

theorem clearRef_out (s : DriverState) : (clearRef s).out = s.out := by
  unfold clearRef; split <;> rfl

theorem clearRef_pendingFinish (s : DriverState) :
    (clearRef s).pendingFinish = s.pendingFinish := by
  unfold clearRef; split <;> rfl

theorem clearRef_fresh (s : DriverState) : (clearRef s).fresh = s.fresh := by
  unfold clearRef; split <;> rfl

theorem clearRef_timeoutRef (s : DriverState) :
    (clearRef s).timeoutRef = s.timeoutRef := by
  unfold clearRef; split <;> rfl

theorem clearRef_skipped (s : DriverState) : (clearRef s).skipped = s.skipped := by
  unfold clearRef; split <;> rfl

theorem onCharEffect_rs (s : DriverState) : (onCharEffect s).rs = s.rs := by
  unfold onCharEffect; split
  · split <;> rfl
  · rfl

theorem onCharEffect_pendingFinish (s : DriverState) :
    (onCharEffect s).pendingFinish = s.pendingFinish := by
  unfold onCharEffect; split
  · split <;> rfl
  · rfl

theorem onCharEffect_liveNext (s : DriverState) :
    (onCharEffect s).liveNext = s.liveNext := by
  unfold onCharEffect; split
  · split <;> rfl
  · rfl

theorem onCharEffect_timeoutRef (s : DriverState) :
    (onCharEffect s).timeoutRef = s.timeoutRef := by
  unfold onCharEffect; split
  · split <;> rfl
  · rfl

theorem onFinishedEffect_rs (s : DriverState) : (onFinishedEffect s).rs = s.rs := rfl

theorem onFinishedEffect_out (s : DriverState) : (onFinishedEffect s).out = s.out := rfl

theorem onFinishedEffect_liveNext (s : DriverState) :
    (onFinishedEffect s).liveNext = s.liveNext := rfl

theorem onFinishedEffect_timeoutRef (s : DriverState) :
    (onFinishedEffect s).timeoutRef = s.timeoutRef := rfl

theorem windupEffect_rs (s : DriverState) : (windupEffect s).rs = s.rs := by
  unfold windupEffect scheduleNext; split <;> simp [clearRef_rs]

theorem windupEffect_out (s : DriverState) : (windupEffect s).out = s.out := by
  unfold windupEffect scheduleNext; split <;> simp [clearRef_out]

theorem windupEffect_pendingFinish (s : DriverState) :
    (windupEffect s).pendingFinish = s.pendingFinish := by
  unfold windupEffect scheduleNext; split <;> simp [clearRef_pendingFinish]

/-! ### Counting lemmas for output traces -/

theorem countFinished_append (a b : List Output) :
    countFinished (a ++ b) = countFinished a + countFinished b := by
  induction a with
  | nil => simp [countFinished]
  | cons h t ih => cases h <;> simp [countFinished, ih] <;> omega

theorem countRevealed_append (a b : List Output) :
    countRevealed (a ++ b) = countRevealed a + countRevealed b := by
  induction a with
  | nil => simp [countRevealed]
  | cons h t ih => cases h <;> simp [countRevealed, ih] <;> omega

theorem countFinished_revealed_map (l : List Nat) (el : String) :
    countFinished (l.map fun i => Output.revealed i el) = 0 := by
  induction l with
  | nil => rfl
  | cons h t ih => simpa [countFinished] using ih

/-! ### Effects-pass equations -/

theorem effectsPass_rs (s : DriverState) (c : Changes) :
    (effectsPass s c).rs = s.rs := by
  unfold effectsPass
  cases hw : c.w <;> cases hd : c.dfo <;> cases hf : c.fin <;>
    simp [hw, hd, hf, windupEffect_rs, onFinishedEffect_rs, onCharEffect_rs]

theorem effectsPass_countFinished (s : DriverState) (c : Changes) :
    countFinished (effectsPass s c).out = countFinished s.out := by
  have hchar : ∀ t : DriverState, countFinished (onCharEffect t).out = countFinished t.out := by
    intro t
    unfold onCharEffect; split
    · split
      · simp [countFinished_append, countFinished_revealed_map]
      · rfl
    · rfl
  unfold effectsPass
  cases hw : c.w <;> cases hd : c.dfo <;> cases hf : c.fin <;>
    simp [hw, hd, hf, windupEffect_out, onFinishedEffect_out, hchar]

theorem effectsPass_pendingFinish (s : DriverState) (c : Changes) :
    (effectsPass s c).pendingFinish =
      if c.dfo || c.fin then !s.rs.didFinishOnce && isFinished s.rs.windup
      else s.pendingFinish := by
  unfold effectsPass onFinishedEffect
  cases hw : c.w <;> cases hd : c.dfo <;> cases hf : c.fin <;>
    simp [hw, hd, hf, windupEffect_pendingFinish, onCharEffect_pendingFinish,
      onCharEffect_rs]

theorem effectsPass_out (s : DriverState) (c : Changes) :
    (effectsPass s c).out = (if c.w then onCharEffect s else s).out := by
  unfold effectsPass
  cases hw : c.w <;> cases hd : c.dfo <;> cases hf : c.fin <;>
    simp [hw, hd, hf, windupEffect_out, onFinishedEffect_out]

theorem effectsPass_none (s : DriverState) :
    effectsPass s { w := false, dfo := false, fin := false } = s := by
  unfold effectsPass; simp

theorem dispatchBatch_one (s : DriverState) (a : WindupReducerAction) :
    dispatchBatch s [a] =
      effectsPass { s with rs := windupReducer s.rs a }
        { w := actionChangesW s.rs a,
          dfo := s.rs.didFinishOnce != (windupReducer s.rs a).didFinishOnce,
          fin := isFinished s.rs.windup != isFinished (windupReducer s.rs a).windup } := by
  simp [dispatchBatch, applyActions]

theorem stepEvent_callRewind (s : DriverState) :
    stepEvent s Event.callRewind = dispatchBatch (clearRef s) [.rewind] := rfl

theorem stepEvent_setWindup (s : DriverState) (w : Windup) :
    stepEvent s (Event.setWindup w) = dispatchBatch s [.replace w] := rfl

theorem fastForward_finished (w : Windup) (h : isFinished w = true) :
    fastForward w = w := by
  cases w with
  | mk seq cur cs p => simp_all [fastForward, isFinished]

theorem clearRef_clearRef (s : DriverState) : clearRef (clearRef s) = clearRef s := by
  rcases h : s.timeoutRef with _ | h'
  · simp [clearRef, h]
  · simp [clearRef, h, List.filter_filter]

/-! ### The claims -/

/-- C10: frame conditions of windupReducer on { windup, didFinishOnce }:
next and fast-forward leave didFinishOnce unchanged; finish leaves the
windup unchanged and only sets didFinishOnce to true; rewind and replace
always produce didFinishOnce = false. -/
theorem reducer_frame_conditions (s : WindupReducerState) (w : Windup) :
    (windupReducer s .next).didFinishOnce = s.didFinishOnce ∧
    (windupReducer s .next).windup = next s.windup ∧
    (windupReducer s .fastForward).didFinishOnce = s.didFinishOnce ∧
    (windupReducer s .fastForward).windup = fastForward s.windup ∧
    (windupReducer s .finish).windup = s.windup ∧
    (windupReducer s .finish).didFinishOnce = true ∧
    (windupReducer s .rewind).didFinishOnce = false ∧
    (windupReducer s (.replace w)).didFinishOnce = false :=
  ⟨rfl, rfl, rfl, rfl, rfl, rfl, rfl, rfl⟩

/-- C6: calling skip() when the windup is already finished is a complete
no-op: the driver state, the live timers, and the output trace are all
unchanged. -/
theorem skip_finished_noop (s : DriverState)
    (h : isFinished s.rs.windup = true) : stepEvent s Event.callSkip = s := by
  unfold stepEvent; simp [h]

/-- Witness for C6 at a concrete finished state. -/
theorem skip_finished_noop_witness :
    stepEvent (⟨⟨⟨["a"], 1, [], none⟩, false⟩, none, none, [], false, 0, []⟩ : DriverState)
        Event.callSkip
      = (⟨⟨⟨["a"], 1, [], none⟩, false⟩, none, none, [], false, 0, []⟩ : DriverState) :=
  skip_finished_noop _ (by decide)

/-- C8: when no element has been played yet (cursor 0), the windup effect
schedules the advance timer with delay zero, for every state and hence
regardless of any pace function the sequence carries. -/
theorem first_delay_zero (s : DriverState)
    (h0 : s.rs.windup.cursor = 0) (h1 : isFinished s.rs.windup = false) :
    (windupEffect s).liveNext = (clearRef s).liveNext ++ [(s.fresh, 0)] := by
  unfold windupEffect scheduleNext
  simp [clearRef_rs, h1, advanceDelay, lastPlayedElement, h0, clearRef_fresh]

/-- Witness for C8 at a cursor-zero state carrying a pace function that
returns 999: the scheduled delay is still 0. -/
theorem first_delay_zero_witness :
    (windupEffect (⟨⟨exPace, false⟩, none, none, [], false, 0, []⟩ : DriverState)).liveNext
      = (clearRef (⟨⟨exPace, false⟩, none, none, [], false, 0, []⟩ : DriverState)).liveNext
          ++ [(0, 0)] :=
  first_delay_zero _ (by decide) (by decide)

/-- C4 counterexample: with a pace function returning -5, after the first
element is played the driver schedules the advance timer with delay -5,
not 0: no clamping happens in the driver. -/
theorem negative_pace_unclamped :
    (run exNegPace none [Event.nextTimer 1]).liveNext = [(2, -5)] ∧
    (run exNegPace none [Event.nextTimer 1]).liveNext ≠ [(2, 0)] := by
  decide

/-- C4 amended: the windup effect passes the pace function's return value
through unchanged as the setTimeout delay whenever an element has been
played; negative (or otherwise malformed) values are not clamped by the
driver (clamping, if any, is the host timer's behaviour). -/
theorem pace_passed_through (s : DriverState) (el : String)
    (h1 : isFinished s.rs.windup = false)
    (h2 : lastPlayedElement s.rs.windup = some el)
    (h3 : el.isEmpty = false) :
    (windupEffect s).liveNext = (clearRef s).liveNext ++
      [(s.fresh,
        ((paceFromWindup s.rs.windup).getD defaultGetPace) el (nextElement s.rs.windup))] := by
  unfold windupEffect scheduleNext
  simp [clearRef_rs, h1, advanceDelay, h2, h3, clearRef_fresh]

/-- Witness for the amended C4 at a state whose pace function returns -5. -/
theorem pace_passed_through_witness :
    (windupEffect (⟨⟨⟨["a", "b", "c"], 1, [], some (fun _ _ => -5)⟩, false⟩,
        none, none, [], false, 0, []⟩ : DriverState)).liveNext
      = (clearRef (⟨⟨⟨["a", "b", "c"], 1, [], some (fun _ _ => -5)⟩, false⟩,
          none, none, [], false, 0, []⟩ : DriverState)).liveNext
        ++ [(0, ((paceFromWindup ⟨["a", "b", "c"], 1, [], some (fun _ _ => -5)⟩).getD
              defaultGetPace) "a" (nextElement ⟨["a", "b", "c"], 1, [], some (fun _ _ => -5)⟩))] :=
  pace_passed_through _ "a" (by decide) (by decide) (by decide)

/-- C2 counterexample: skip() on the five-element sequence fires exactly one
reveal invocation, carrying only the last element "e" — not five, and the
elements "a".."d" are never passed to the callback. -/
theorem skip_single_reveal :
    (run exFive none [Event.callSkip]).out = [Output.revealed 7 "e"] ∧
    countRevealed (run exFive none [Event.callSkip]).out ≠ 5 := by
  decide

/-- C2 amended: after skip() on an unfinished windup, the driver appends to
the trace one invocation per reveal callback of the sequence, each carrying
the last played element of the fast-forwarded windup only; elements played
over by the jump get no separate invocation. -/
theorem skip_reveals_last_only (s : DriverState) (el : String)
    (h1 : isFinished s.rs.windup = false)
    (h2 : lastPlayedElement (fastForward s.rs.windup) = some el)
    (h3 : el.isEmpty = false)
    (h4 : onCharsFromWindup (fastForward s.rs.windup) ≠ []) :
    (stepEvent s Event.callSkip).out =
      s.out ++ (onCharsFromWindup (fastForward s.rs.windup)).map
        (fun i => Output.revealed i el) := by
  unfold stepEvent
  simp only [h1, Bool.false_eq_true, if_false]
  rw [dispatchBatch_one, effectsPass_out]
  have hw : actionChangesW (clearRef s).rs WindupReducerAction.fastForward = true := by
    simp [actionChangesW, clearRef_rs, h1]
  rw [hw, if_pos rfl]
  unfold onCharEffect
  simp [windupReducer, clearRef_rs, clearRef_out, h2, h3, List.length_pos, h4]

/-- Witness for the amended C2 on the five-element sequence. -/
theorem skip_reveals_last_only_witness :
    (stepEvent (⟨⟨exFive, false⟩, none, none, [], false, 0, []⟩ : DriverState)
        Event.callSkip).out =
      [] ++ (onCharsFromWindup (fastForward exFive)).map (fun i => Output.revealed i "e") :=
  skip_reveals_last_only _ "e" (by decide) (by decide) (by decide) (by decide)

/-- C5 counterexample: on the empty sequence the completion is deferred at
mount; a rewind issued before the deferred callback runs does not cancel it
(none of the completion effect's dependencies change), and the completion
callback is still delivered afterwards. -/
theorem rewind_does_not_cancel_on_empty :
    (run exEmpty none []).pendingFinish = true ∧
    countFinished (run exEmpty none [Event.callRewind, Event.finishTimer]).out = 1 := by
  decide

/-- C5 amended: a rewind or replacement that lands in a non-finished state
(for rewind: the sequence is nonempty; for replace: the new windup is not
finished) cancels the deferred completion callback; when the rewound or
replacing state is still immediately finished (empty sequence), the queued
callback survives and is delivered for the new play-through. -/
theorem reset_cancels_pending_finish (s : DriverState) (w : Windup)
    (h1 : isFinished s.rs.windup = true)
    (h2 : s.rs.windup.sequence ≠ [])
    (h3 : isFinished w = false) :
    (stepEvent s Event.callRewind).pendingFinish = false ∧
    (stepEvent s (Event.setWindup w)).pendingFinish = false := by
  constructor
  · rw [stepEvent_callRewind, dispatchBatch_one, effectsPass_pendingFinish]
    have hfin : isFinished (rewind s.rs.windup) = false := by
      have hpos : 0 < s.rs.windup.sequence.length := List.length_pos.mpr h2
      simp [isFinished, rewind]
      omega
    simp [clearRef_rs, windupReducer, h1, hfin]
  · rw [stepEvent_setWindup, dispatchBatch_one, effectsPass_pendingFinish]
    simp [windupReducer, initWindupState, h1, h3]

theorem driverState_eta_rs (x : DriverState) (r : WindupReducerState) (h : r = x.rs) :
    ({ rs := r, skipped := x.skipped, timeoutRef := x.timeoutRef,
        liveNext := x.liveNext, pendingFinish := x.pendingFinish,
        fresh := x.fresh, out := x.out } : DriverState) = x := by
  cases x; cases h; rfl

theorem stepEvent_callSkip (s : DriverState) :
    stepEvent s Event.callSkip =
      if isFinished s.rs.windup then s
      else dispatchBatch (clearRef s) [.fastForward] := rfl

theorem stepEvent_setSkipped_true (s : DriverState) (h : s.skipped ≠ some true) :
    stepEvent s (Event.setSkipped (some true)) =
      dispatchBatch (clearRef { s with skipped := some true }) [.fastForward] := by
  have hb : (s.skipped == some true) = false := beq_eq_false_iff_ne.mpr h
  simp [stepEvent, hb]

theorem stepEvent_setSkipped_false (s : DriverState) (h : s.skipped ≠ some false) :
    stepEvent s (Event.setSkipped (some false)) =
      dispatchBatch (clearRef { s with skipped := some false }) [.rewind] := by
  have hb : (s.skipped == some false) = false := beq_eq_false_iff_ne.mpr h
  simp [stepEvent, hb]

theorem stepEvent_setSkipped_none (s : DriverState) (h : s.skipped ≠ none) :
    stepEvent s (Event.setSkipped none) = clearRef { s with skipped := none } := by
  have hb : (s.skipped == (none : Option Bool)) = false := beq_eq_false_iff_ne.mpr h
  simp [stepEvent, hb]

/-- Witness for the amended C5 at a concrete finished-but-unnotified state. -/
theorem reset_cancels_pending_finish_witness :
    (stepEvent (⟨⟨⟨["a", "b", "c"], 3, [1], none⟩, false⟩, none, none, [], true, 2, []⟩ :
        DriverState) Event.callRewind).pendingFinish = false ∧
    (stepEvent (⟨⟨⟨["a", "b", "c"], 3, [1], none⟩, false⟩, none, none, [], true, 2, []⟩ :
        DriverState) (Event.setWindup exTwo)).pendingFinish = false :=
  reset_cancels_pending_finish _ exTwo (by decide) (by decide) (by decide)

/-- C7 counterexample: with the control signal initially false, a live
advance timer (1, 0) is pending; changing the signal to absent cancels that
timer (the effect's unconditional clearTimeout runs) while leaving the
reducer state alone — the absent value is not free of effect on the pending
timer. -/
theorem skipped_absent_cancels_timer :
    (run exThree (some false) []).liveNext = [(1, 0)] ∧
    (run exThree (some false) [Event.setSkipped none]).liveNext = [] ∧
    (run exThree (some false) [Event.setSkipped none]).rs.windup.cursor = 0 ∧
    (run exThree (some false) [Event.setSkipped none]).rs.didFinishOnce = false := by
  decide

/-- C7 amended: on every change of the control signal, true behaves as
skip() (after recording the new signal and the unconditional timer-clear,
which is a no-op whenever skip itself would clear), false behaves exactly
as the rewind request, and absent leaves the reducer state and output trace
unchanged but still cancels the pending advance timer. -/
theorem control_signal_behavior (s : DriverState) :
    (s.skipped ≠ some true →
      stepEvent s (Event.setSkipped (some true)) =
        stepEvent (clearRef { s with skipped := some true }) Event.callSkip) ∧
    (s.skipped ≠ some false →
      stepEvent s (Event.setSkipped (some false)) =
        stepEvent { s with skipped := some false } Event.callRewind) ∧
    (s.skipped ≠ none →
      (stepEvent s (Event.setSkipped none)).rs = s.rs ∧
      (stepEvent s (Event.setSkipped none)).out = s.out ∧
      (stepEvent s (Event.setSkipped none)).liveNext = (clearRef s).liveNext) := by
  refine ⟨fun h => ?_, fun h => ?_, fun h => ?_⟩
  · rw [stepEvent_setSkipped_true s h, stepEvent_callSkip]
    have hrs : (clearRef { s with skipped := some true }).rs = s.rs := clearRef_rs _
    cases hfin : isFinished s.rs.windup
    · simp only [hrs, hfin, Bool.false_eq_true, if_false, clearRef_clearRef]
    · simp only [hrs, hfin, if_true]
      rw [dispatchBatch_one]
      have hffw : fastForward s.rs.windup = s.rs.windup := fastForward_finished _ hfin
      simp only [windupReducer, actionChangesW, hrs, hfin, hffw, Bool.not_true,
        bne_self_eq_false, Bool.or_false, effectsPass_none]
      have heta : ({ windup := s.rs.windup, didFinishOnce := s.rs.didFinishOnce } :
          WindupReducerState) = s.rs := rfl
      exact driverState_eta_rs _ _ (heta.trans hrs.symm)
  · rw [stepEvent_setSkipped_false s h, stepEvent_callRewind]
  · rw [stepEvent_setSkipped_none s h]
    refine ⟨clearRef_rs _, clearRef_out _, ?_⟩
    rcases hT : s.timeoutRef with _ | hh <;> simp [clearRef, hT]

/-- Witness for the amended C7, exercising all three signal values. -/
theorem control_signal_behavior_witness :
    (stepEvent (mount exThree none) (Event.setSkipped (some true)) =
      stepEvent (clearRef { mount exThree none with skipped := some true }) Event.callSkip) ∧
    (stepEvent (mount exThree none) (Event.setSkipped (some false)) =
      stepEvent { mount exThree none with skipped := some false } Event.callRewind) ∧
    ((stepEvent (mount exThree (some true)) (Event.setSkipped none)).rs
        = (mount exThree (some true)).rs ∧
      (stepEvent (mount exThree (some true)) (Event.setSkipped none)).out
        = (mount exThree (some true)).out ∧
      (stepEvent (mount exThree (some true)) (Event.setSkipped none)).liveNext
        = (clearRef (mount exThree (some true))).liveNext) :=
  ⟨(control_signal_behavior (mount exThree none)).1 (by decide),
   (control_signal_behavior (mount exThree none)).2.1 (by decide),
   (control_signal_behavior (mount exThree (some true))).2.2 (by decide)⟩

/-! ### The segment invariant behind the one-shot completion -/

theorem segInv_dispatch (c0 : Nat) (s t : DriverState) (a : WindupReducerAction)
    (htOut : t.out = s.out) (htRs : t.rs = s.rs)
    (htPf : t.pendingFinish = s.pendingFinish)
    (ha : (windupReducer t.rs a).didFinishOnce = t.rs.didFinishOnce)
    (h1 : countFinished s.out = c0 + (if s.rs.didFinishOnce then 1 else 0))
    (h2 : s.pendingFinish = true → s.rs.didFinishOnce = false) :
    countFinished (dispatchBatch t [a]).out
        = c0 + (if (dispatchBatch t [a]).rs.didFinishOnce then 1 else 0) ∧
    ((dispatchBatch t [a]).pendingFinish = true →
      (dispatchBatch t [a]).rs.didFinishOnce = false) := by
  rw [dispatchBatch_one]
  constructor
  · rw [effectsPass_countFinished, effectsPass_rs]
    rw [show ({ t with rs := windupReducer t.rs a } : DriverState).out = t.out from rfl]
    rw [show ({ t with rs := windupReducer t.rs a } : DriverState).rs
        = windupReducer t.rs a from rfl]
    rw [htOut, ha, htRs, h1]
  · rw [effectsPass_pendingFinish, effectsPass_rs]
    rw [show ({ t with rs := windupReducer t.rs a } : DriverState).rs
        = windupReducer t.rs a from rfl]
    rw [show ({ t with rs := windupReducer t.rs a } : DriverState).pendingFinish
        = t.pendingFinish from rfl]
    rw [ha, htRs, htPf]
    intro hp
    split at hp
    · rw [Bool.and_eq_true] at hp
      simpa using hp.1
    · exact h2 hp

theorem segInv_step (c0 : Nat) (s : DriverState) (e : Event)
    (hr : isReset e = false)
    (h1 : countFinished s.out = c0 + (if s.rs.didFinishOnce then 1 else 0))
    (h2 : s.pendingFinish = true → s.rs.didFinishOnce = false) :
    countFinished (stepEvent s e).out
        = c0 + (if (stepEvent s e).rs.didFinishOnce then 1 else 0) ∧
    ((stepEvent s e).pendingFinish = true →
      (stepEvent s e).rs.didFinishOnce = false) := by
  cases e with
  | nextTimer h =>
      rw [show stepEvent s (Event.nextTimer h)
          = if (s.liveNext.any fun p => p.1 == h) = true then
              dispatchBatch
                { s with liveNext := s.liveNext.filter fun p => p.1 != h }
                [.next]
            else s from rfl]
      split
      · exact segInv_dispatch c0 s _ .next rfl rfl rfl rfl h1 h2
      · exact ⟨h1, h2⟩
  | finishTimer =>
      rw [show stepEvent s Event.finishTimer
          = if s.pendingFinish = true then
              dispatchBatch
                { s with pendingFinish := false, out := s.out ++ [Output.finished] }
                [.finish]
            else s from rfl]
      split
      case isTrue hp =>
        have hdfo : s.rs.didFinishOnce = false := h2 hp
        rw [dispatchBatch_one]
        constructor
        · rw [effectsPass_countFinished, effectsPass_rs]
          simp [windupReducer, countFinished_append, countFinished, h1, hdfo]
        · rw [effectsPass_pendingFinish]
          intro hq
          simp [windupReducer] at hq
      case isFalse => exact ⟨h1, h2⟩
  | callSkip =>
      rw [stepEvent_callSkip]
      split
      · exact ⟨h1, h2⟩
      · exact segInv_dispatch c0 s (clearRef s) .fastForward
          (clearRef_out s) (clearRef_rs s) (clearRef_pendingFinish s) rfl h1 h2
  | callRewind => simp [isReset] at hr
  | setSkipped b =>
      cases b with
      | none =>
          rw [show stepEvent s (Event.setSkipped none)
              = if (s.skipped == (none : Option Bool)) = true then s
                else clearRef { s with skipped := none } from rfl]
          split
          · exact ⟨h1, h2⟩
          · refine ⟨?_, ?_⟩
            · rw [clearRef_out, clearRef_rs]; exact h1
            · rw [clearRef_pendingFinish, clearRef_rs]; exact h2
      | some bb =>
          cases bb with
          | false => simp [isReset] at hr
          | true =>
              rw [show stepEvent s (Event.setSkipped (some true))
                  = if (s.skipped == some true) = true then s
                    else dispatchBatch (clearRef { s with skipped := some true })
                      [.fastForward] from rfl]
              split
              · exact ⟨h1, h2⟩
              · exact segInv_dispatch c0 s (clearRef { s with skipped := some true })
                  .fastForward (clearRef_out _) (clearRef_rs _)
                  (clearRef_pendingFinish _) rfl h1 h2
  | setWindup w => simp [isReset] at hr

theorem segInv_run (c0 : Nat) (s : DriverState) (es : List Event)
    (hres : es.all (fun e => !isReset e) = true)
    (h1 : countFinished s.out = c0 + (if s.rs.didFinishOnce then 1 else 0))
    (h2 : s.pendingFinish = true → s.rs.didFinishOnce = false) :
    countFinished (runFrom s es).out
        = c0 + (if (runFrom s es).rs.didFinishOnce then 1 else 0) ∧
    ((runFrom s es).pendingFinish = true →
      (runFrom s es).rs.didFinishOnce = false) := by
  induction es generalizing s with
  | nil => exact ⟨h1, h2⟩
  | cons e t ih =>
      simp only [List.all_cons, Bool.and_eq_true, Bool.not_eq_true'] at hres
      have hstep := segInv_step c0 s e hres.1 h1 h2
      exact ih (stepEvent s e) hres.2 hstep.1 hstep.2

/-- C1: within a play-through (a run segment free of rewind, replace, and
control-signal-false events, started at a state whose didFinishOnce flag is
false — as after mount, rewind, or replace), the number of completion
invocations added to the trace is 0 while didFinishOnce is false and
exactly 1 once it is true; so the completion callback fires exactly once
per play-through however many skip / fast-forward events occur, gated by
didFinishOnce. -/
theorem completion_fires_once (s0 : DriverState) (es : List Event)
    (hres : es.all (fun e => !isReset e) = true)
    (h0 : s0.rs.didFinishOnce = false) :
    countFinished (runFrom s0 es).out
      = countFinished s0.out
        + (if (runFrom s0 es).rs.didFinishOnce then 1 else 0) :=
  (segInv_run (countFinished s0.out) s0 es hres (by simp [h0]) (fun _ => h0)).1

/-- Witness for C1: mount, then skip, deliver the deferred completion, and
skip again — exactly one completion is counted. -/
theorem completion_fires_once_witness :
    countFinished (runFrom (mount exTwo none)
        [Event.callSkip, Event.finishTimer, Event.callSkip]).out
      = countFinished (mount exTwo none).out
        + (if (runFrom (mount exTwo none)
              [Event.callSkip, Event.finishTimer, Event.callSkip]).rs.didFinishOnce
           then 1 else 0) :=
  completion_fires_once (mount exTwo none)
    [Event.callSkip, Event.finishTimer, Event.callSkip] (by decide) (by decide)

/-! ### The timer discipline -/

theorem timerOk_frame (s t : DriverState) (hl : t.liveNext = s.liveNext)
    (ht : t.timeoutRef = s.timeoutRef) : timerOk t = timerOk s := by
  unfold timerOk; rw [hl, ht]

theorem clearRef_empties (s : DriverState) (h : timerOk s = true) :
    (clearRef s).liveNext = [] := by
  unfold timerOk at h
  rw [Bool.and_eq_true] at h
  cases hT : s.timeoutRef with
  | none =>
      have hnil : s.liveNext = [] := by
        cases hl : s.liveNext with
        | nil => rfl
        | cons p rest =>
            exfalso
            have := List.all_eq_true.mp h.2 p (by rw [hl]; exact List.mem_cons_self p rest)
            rw [hT] at this
            simp at this
      simp [clearRef, hT, hnil]
  | some hh =>
      have hall : ∀ p ∈ s.liveNext, p.1 = hh := by
        intro p hp
        have := List.all_eq_true.mp h.2 p hp
        rw [hT] at this
        simp at this
        omega
      simp only [clearRef, hT]
      exact List.filter_eq_nil_iff.mpr (fun p hp => by simp [hall p hp])

theorem timerOk_clearRef (s : DriverState) (h : timerOk s = true) :
    timerOk (clearRef s) = true := by
  unfold timerOk
  rw [clearRef_empties s h]
  simp

theorem timerOk_windupEffect (s : DriverState) (h : timerOk s = true) :
    timerOk (windupEffect s) = true := by
  unfold windupEffect
  split
  · exact timerOk_clearRef s h
  · unfold timerOk scheduleNext
    rw [clearRef_empties s h]
    simp

theorem timerOk_onFinishedEffect (s : DriverState) :
    timerOk (onFinishedEffect s) = timerOk s := rfl

theorem timerOk_onCharEffect (s : DriverState) :
    timerOk (onCharEffect s) = timerOk s :=
  timerOk_frame s (onCharEffect s) (onCharEffect_liveNext s) (onCharEffect_timeoutRef s)

theorem timerOk_effectsPass (s : DriverState) (c : Changes) (h : timerOk s = true) :
    timerOk (effectsPass s c) = true := by
  unfold effectsPass
  cases hw : c.w <;> cases hd : c.dfo <;> cases hf : c.fin <;>
    simp only [hw, hd, hf, Bool.or_self, Bool.or_true, Bool.true_or, Bool.or_false,
      Bool.false_or, Bool.false_eq_true, if_true, if_false] <;>
    first
      | exact h
      | (rw [timerOk_onFinishedEffect]; exact h)
      | (rw [timerOk_onCharEffect]; exact h)
      | (rw [timerOk_onFinishedEffect, timerOk_onCharEffect]; exact h)
      | exact timerOk_windupEffect _ (by rw [timerOk_onCharEffect]; exact h)
      | exact timerOk_windupEffect _ (by rw [timerOk_onFinishedEffect]; exact h)
      | exact timerOk_windupEffect _
          (by rw [timerOk_onFinishedEffect, timerOk_onCharEffect]; exact h)

theorem timerOk_dispatchBatch (s : DriverState) (acts : List WindupReducerAction)
    (h : timerOk s = true) : timerOk (dispatchBatch s acts) = true := by
  cases acts with
  | nil => exact h
  | cons a t => exact timerOk_effectsPass _ _ h

theorem timerOk_filter (s : DriverState) (f : Nat × Int → Bool)
    (h : timerOk s = true) :
    timerOk { s with liveNext := s.liveNext.filter f } = true := by
  unfold timerOk at h ⊢
  rw [Bool.and_eq_true] at h ⊢
  constructor
  · simp only [decide_eq_true_eq] at h ⊢
    exact le_trans (List.length_filter_le _ _) h.1
  · rw [List.all_eq_true]
    intro p hp
    exact List.all_eq_true.mp h.2 p (List.mem_of_mem_filter hp)

theorem timerOk_step (s : DriverState) (e : Event) (h : timerOk s = true) :
    timerOk (stepEvent s e) = true := by
  cases e with
  | nextTimer hh =>
      rw [show stepEvent s (Event.nextTimer hh)
          = if (s.liveNext.any fun p => p.1 == hh) = true then
              dispatchBatch
                { s with liveNext := s.liveNext.filter fun p => p.1 != hh } [.next]
            else s from rfl]
      split
      · exact timerOk_dispatchBatch _ _ (timerOk_filter s _ h)
      · exact h
  | finishTimer =>
      rw [show stepEvent s Event.finishTimer
          = if s.pendingFinish = true then
              dispatchBatch
                { s with pendingFinish := false, out := s.out ++ [Output.finished] }
                [.finish]
            else s from rfl]
      split
      · exact timerOk_dispatchBatch _ _ h
      · exact h
  | callSkip =>
      rw [stepEvent_callSkip]
      split
      · exact h
      · exact timerOk_dispatchBatch _ _ (timerOk_clearRef s h)
  | callRewind =>
      rw [stepEvent_callRewind]
      exact timerOk_dispatchBatch _ _ (timerOk_clearRef s h)
  | setSkipped b =>
      cases b with
      | none =>
          rw [show stepEvent s (Event.setSkipped none)
              = if (s.skipped == (none : Option Bool)) = true then s
                else clearRef { s with skipped := none } from rfl]
          split
          · exact h
          · exact timerOk_clearRef _ h
      | some bb =>
          cases bb with
          | false =>
              rw [show stepEvent s (Event.setSkipped (some false))
                  = if (s.skipped == some false) = true then s
                    else dispatchBatch (clearRef { s with skipped := some false })
                      [.rewind] from rfl]
              split
              · exact h
              · exact timerOk_dispatchBatch _ _ (timerOk_clearRef _ h)
          | true =>
              rw [show stepEvent s (Event.setSkipped (some true))
                  = if (s.skipped == some true) = true then s
                    else dispatchBatch (clearRef { s with skipped := some true })
                      [.fastForward] from rfl]
              split
              · exact h
              · exact timerOk_dispatchBatch _ _ (timerOk_clearRef _ h)
  | setWindup w =>
      rw [stepEvent_setWindup]
      exact timerOk_dispatchBatch _ _ h

theorem timerOk_mount (w : Windup) (sk : Option Bool) : timerOk (mount w sk) = true := by
  simp only [mount]
  apply timerOk_dispatchBatch
  apply timerOk_windupEffect
  rw [timerOk_onFinishedEffect, timerOk_onCharEffect]
  apply timerOk_clearRef
  rfl

theorem timerOk_runFrom (s : DriverState) (es : List Event) (h : timerOk s = true) :
    timerOk (runFrom s es) = true := by
  induction es generalizing s with
  | nil => exact h
  | cons e t ih => exact ih _ (timerOk_step s e h)

/-- C3: every reachable driver state (any mount followed by any sequence of
events) has at most one live advance timer, and any live handle is exactly
the one referenced by timeoutRef: every rescheduling, as well as skip,
rewind, replace, and the control-signal handler, clears the referenced
handle before a new timer is created, and a superseded handle is no longer
live, so stepEvent treats its firing as a no-op — a stale timer never acts
against the new state. -/
theorem single_pending_timer (w : Windup) (sk : Option Bool) (es : List Event) :
    timerOk (run w sk es) = true :=
  timerOk_runFrom (mount w sk) es (timerOk_mount w sk)

/-! ### The empty-sequence invariant -/

theorem driverState_eta_liveNext (x : DriverState) (l : List (Nat × Int))
    (h : l = x.liveNext) : ({ x with liveNext := l } : DriverState) = x := by
  cases x; cases h; rfl

theorem clearRef_of_nil (t : DriverState) (hl : t.liveNext = []) : clearRef t = t := by
  cases t with
  | mk rs sk tr ln pf fr out =>
      have hl2 : ln = [] := hl
      subst hl2
      unfold clearRef
      cases tr <;> rfl

theorem onCharEffect_none (t : DriverState)
    (hw : lastPlayedElement t.rs.windup = none) : onCharEffect t = t := by
  unfold onCharEffect; rw [hw]

theorem windupEffect_finished (t : DriverState)
    (hf : isFinished t.rs.windup = true) (hl : t.liveNext = []) :
    windupEffect t = t := by
  unfold windupEffect
  rw [clearRef_of_nil t hl]
  simp [hf]

theorem effectsPass_finished_id (t : DriverState) (c : Changes)
    (hw : lastPlayedElement t.rs.windup = none)
    (hf : isFinished t.rs.windup = true)
    (hl : t.liveNext = []) :
    effectsPass t c =
      { t with pendingFinish :=
          if c.dfo || c.fin then !t.rs.didFinishOnce && isFinished t.rs.windup
          else t.pendingFinish } := by
  have h1 : (if c.w then onCharEffect t else t) = t := by
    cases hcw : c.w <;> simp [onCharEffect_none t hw]
  unfold effectsPass
  rw [h1]
  cases hdf : (c.dfo || c.fin)
  · simp only [hdf, Bool.false_eq_true, if_false]
    cases hwf : (c.w || c.fin)
    · simp only [hwf, Bool.false_eq_true, if_false]
    · simp only [hwf, if_true]
      rw [windupEffect_finished t hf hl]
  · simp only [hdf, if_true]
    cases hwf : (c.w || c.fin)
    · simp only [hwf, Bool.false_eq_true, if_false]
      rfl
    · simp only [hwf, if_true]
      rw [windupEffect_finished (onFinishedEffect t) hf hl]
      rfl

theorem dispatchBatch_ff_finished (t : DriverState)
    (h : isFinished t.rs.windup = true) :
    dispatchBatch t [.fastForward] = t := by
  rw [dispatchBatch_one]
  have hffw : fastForward t.rs.windup = t.rs.windup := fastForward_finished _ h
  simp only [windupReducer, actionChangesW, h, hffw, Bool.not_true, bne_self_eq_false,
    Bool.or_false, effectsPass_none]

theorem dispatchBatch_finish (t : DriverState)
    (hdfo : t.rs.didFinishOnce = false)
    (hfin : isFinished t.rs.windup = true)
    (hlast : lastPlayedElement t.rs.windup = none)
    (hl : t.liveNext = []) :
    dispatchBatch t [.finish]
      = { t with rs := { t.rs with didFinishOnce := true }, pendingFinish := false } := by
  rw [dispatchBatch_one]
  rw [effectsPass_finished_id
    { t with rs := windupReducer t.rs WindupReducerAction.finish } _ hlast hfin hl]
  simp [windupReducer, hdfo, hfin]

theorem emptyInv_step (cs : List Nat) (p : Option (String → Option String → Int))
    (s : DriverState) (e : Event) (hr : isReset e = false) (h : emptyInv cs p s) :
    emptyInv cs p (stepEvent s e) := by
  obtain ⟨hA, hB, hC, hD, hE⟩ := h
  have hfin : isFinished s.rs.windup = true := by rw [hA]; rfl
  have hlast : lastPlayedElement s.rs.windup = none := by rw [hA]; rfl
  cases e with
  | nextTimer hh =>
      have hany : (s.liveNext.any fun p2 => p2.1 == hh) = false := by rw [hB]; rfl
      simp only [stepEvent, hany, Bool.false_eq_true, if_false]
      exact ⟨hA, hB, hC, hD, hE⟩
  | finishTimer =>
      cases hdfo : s.rs.didFinishOnce with
      | true =>
          have hp : s.pendingFinish = false := by rw [hD, hdfo]; rfl
          simp only [stepEvent, hp, Bool.false_eq_true, if_false]
          exact ⟨hA, hB, hC, hD, hE⟩
      | false =>
          have hp : s.pendingFinish = true := by rw [hD, hdfo]; rfl
          simp only [stepEvent, hp, if_true]
          rw [dispatchBatch_finish
            { s with pendingFinish := false, out := s.out ++ [Output.finished] }
            hdfo hfin hlast hB]
          refine ⟨hA, hB, ?_, rfl, ?_⟩
          · simp [countRevealed_append, hC, countRevealed]
          · simp [countFinished_append, hE, hdfo, countFinished]
  | callSkip =>
      simp only [stepEvent_callSkip, hfin, if_true]
      exact ⟨hA, hB, hC, hD, hE⟩
  | callRewind => simp [isReset] at hr
  | setWindup w => simp [isReset] at hr
  | setSkipped b =>
      cases b with
      | none =>
          by_cases hsk : (s.skipped == (none : Option Bool)) = true
          · simp only [stepEvent, hsk, if_true]
            exact ⟨hA, hB, hC, hD, hE⟩
          · have hstep : stepEvent s (Event.setSkipped none)
                = clearRef { s with skipped := none } := by
              simp only [stepEvent, hsk, Bool.false_eq_true, if_false]
            rw [hstep, clearRef_of_nil { s with skipped := none } hB]
            exact ⟨hA, hB, hC, hD, hE⟩
      | some bb =>
          cases bb with
          | false => simp [isReset] at hr
          | true =>
              by_cases hsk : (s.skipped == some true) = true
              · simp only [stepEvent, hsk, if_true]
                exact ⟨hA, hB, hC, hD, hE⟩
              · have hstep : stepEvent s (Event.setSkipped (some true))
                    = dispatchBatch (clearRef { s with skipped := some true })
                        [.fastForward] := by
                  simp only [stepEvent, hsk, Bool.false_eq_true, if_false]
                rw [hstep, clearRef_of_nil { s with skipped := some true } hB,
                  dispatchBatch_ff_finished { s with skipped := some true } hfin]
                exact ⟨hA, hB, hC, hD, hE⟩

theorem emptyInv_mount (cs : List Nat) (p : Option (String → Option String → Int))
    (sk : Option Bool) : emptyInv cs p (mount ⟨[], 0, cs, p⟩ sk) := by
  cases sk with
  | none => exact ⟨rfl, rfl, rfl, rfl, rfl⟩
  | some b => cases b <;> exact ⟨rfl, rfl, rfl, rfl, rfl⟩

theorem emptyInv_runFrom (cs : List Nat) (p : Option (String → Option String → Int))
    (s : DriverState) (es : List Event)
    (hres : es.all (fun e => !isReset e) = true) (h : emptyInv cs p s) :
    emptyInv cs p (runFrom s es) := by
  induction es generalizing s with
  | nil => exact h
  | cons e t ih =>
      simp only [List.all_cons, Bool.and_eq_true, Bool.not_eq_true'] at hres
      exact ih (stepEvent s e) hres.2 (emptyInv_step cs p s e hres.1 h)

/-- C9: a driver mounted on the empty sequence is immediately finished,
never has a live advance timer, fires no reveal callback under any
reset-free event sequence, and still delivers exactly one completion
notification for the play-through (delivered at the latest when the
deferred completion timeout fires). -/
theorem empty_sequence_behavior (cs : List Nat)
    (p : Option (String → Option String → Int)) (sk : Option Bool)
    (es : List Event) (hres : es.all (fun e => !isReset e) = true) :
    isFinished (⟨[], 0, cs, p⟩ : Windup) = true ∧
    (run ⟨[], 0, cs, p⟩ sk es).liveNext = [] ∧
    countRevealed (run ⟨[], 0, cs, p⟩ sk es).out = 0 ∧
    countFinished (run ⟨[], 0, cs, p⟩ sk (es ++ [Event.finishTimer])).out = 1 := by
  have hinv := emptyInv_runFrom cs p (mount ⟨[], 0, cs, p⟩ sk) es hres
    (emptyInv_mount cs p sk)
  obtain ⟨hA, hB, hC, hD, hE⟩ := hinv
  refine ⟨rfl, hB, hC, ?_⟩
  have hsplit : run ⟨[], 0, cs, p⟩ sk (es ++ [Event.finishTimer])
      = stepEvent (runFrom (mount ⟨[], 0, cs, p⟩ sk) es) Event.finishTimer := by
    rw [run, runFrom, List.foldl_append]
    rfl
  rw [hsplit]
  have hfin : isFinished (runFrom (mount ⟨[], 0, cs, p⟩ sk) es).rs.windup = true := by
    rw [hA]; rfl
  have hlast : lastPlayedElement (runFrom (mount ⟨[], 0, cs, p⟩ sk) es).rs.windup
      = none := by
    rw [hA]; rfl
  cases hdfo : (runFrom (mount ⟨[], 0, cs, p⟩ sk) es).rs.didFinishOnce with
  | true =>
      have hp : (runFrom (mount ⟨[], 0, cs, p⟩ sk) es).pendingFinish = false := by
        rw [hD, hdfo]; rfl
      simp only [stepEvent, hp, Bool.false_eq_true, if_false]
      rw [hE, hdfo]; rfl
  | false =>
      have hp : (runFrom (mount ⟨[], 0, cs, p⟩ sk) es).pendingFinish = true := by
        rw [hD, hdfo]; rfl
      simp only [stepEvent, hp, if_true]
      rw [dispatchBatch_finish
        { runFrom (mount ⟨[], 0, cs, p⟩ sk) es with
            pendingFinish := false,
            out := (runFrom (mount ⟨[], 0, cs, p⟩ sk) es).out ++ [Output.finished] }
        hdfo hfin hlast hB]
      simp [countFinished_append, hE, hdfo, countFinished]

/-- Witness for C9 with a reset-free event list containing a skip. -/
theorem empty_sequence_behavior_witness :
    isFinished (⟨[], 0, [3], none⟩ : Windup) = true ∧
    (run ⟨[], 0, [3], none⟩ none [Event.callSkip]).liveNext = [] ∧
    countRevealed (run ⟨[], 0, [3], none⟩ none [Event.callSkip]).out = 0 ∧
    countFinished (run ⟨[], 0, [3], none⟩ none
        ([Event.callSkip] ++ [Event.finishTimer])).out = 1 :=
  empty_sequence_behavior [3] none none [Event.callSkip] (by decide)

end Windups
